import Mathlib

/-!
Verification development for the download pipeline orchestrator of
`src/queue-manager.js` (Playlist-Downloader-Electron).  JavaScript strings
are shallowly embedded as `List Char`; the filesystem as an association
list from full path to an opaque content id; the external tools (yt-dlp,
ffmpeg, Jimp) as oracle functions collected in an `Env` record.  All
definitions are translated from the source file; theorems settle the
frozen claims about that source.
-/

/-- JavaScript strings are modelled as lists of characters. -/
abbrev Str := List Char

/-- Whitespace characters stripped by the JavaScript `String.prototype.trim`
(ASCII fragment: space, tab, LF, CR, VT, FF; after the sanitizing filter
only the plain space can actually remain). -/
def jsWs (c : Char) : Bool :=
  c = ' ' || c = '\t' || c = '\n' || c = '\r' || c = Char.ofNat 11 || c = Char.ofNat 12

/-- Drop trailing characters satisfying `p` (helper for `jsTrim`). -/
def dropTrail (p : Char → Bool) (s : Str) : Str :=
  (s.reverse.dropWhile p).reverse

/-- JavaScript `s.trim()`: remove leading and trailing whitespace. -/
def jsTrim (s : Str) : Str :=
  dropTrail jsWs (s.dropWhile jsWs)

/-- Character class kept by the sanitizing regex `[^a-zA-Z0-9 \.\_\-]`
(queue-manager.js lines 138 and 301): lowercase and uppercase ASCII
letters, digits, space, dot, underscore, hyphen. -/
def allowedChar (c : Char) : Bool :=
  ('a' ≤ c && c ≤ 'z') || ('A' ≤ c && c ≤ 'Z') || ('0' ≤ c && c ≤ '9')
    || c = ' ' || c = '.' || c = '_' || c = '-'

/-- The sanitize step `title.replace(/[^a-zA-Z0-9 \.\_\-]/g, "").trim()`
used both for final filenames (line 301) and for playlist directory
names (line 138). -/
def sanitize (s : Str) : Str :=
  jsTrim (s.filter allowedChar)

/-- Modelled from the spec: the character class as the specification
words it, "[A-Za-z0-9, space, `.`, `_`, `-`]", to be compared with the
character class of the regex in the source. -/
def specSafeChar (c : Char) : Prop :=
  ('A' ≤ c ∧ c ≤ 'Z') ∨ ('a' ≤ c ∧ c ≤ 'z') ∨ ('0' ≤ c ∧ c ≤ '9')
    ∨ c = ' ' ∨ c = '.' ∨ c = '_' ∨ c = '-'

/-- C3: the sanitize step used for both final filenames and playlist
directory names keeps exactly the characters of the class
[A-Za-z0-9, space, dot, underscore, hyphen] and trims surrounding
whitespace; the title "Song: Name? (Live) / v2" sanitizes to
"Song Name Live  v2" with the internal double space preserved. -/
theorem sanitize_matches_spec_class :
    (∀ c : Char, allowedChar c = true ↔ specSafeChar c) ∧
    (∀ s : Str, sanitize s = jsTrim (s.filter allowedChar)) ∧
    sanitize ("Song: Name? (Live) / v2").data = ("Song Name Live  v2").data := by
  refine ⟨?_, fun s => rfl, by decide⟩
  intro c
  simp only [allowedChar, specSafeChar, Bool.or_eq_true, Bool.and_eq_true,
    decide_eq_true_eq]
  tauto

/-! ## Filesystem model

Files only (directories are not modelled; `mkdirSync` is a no-op here and
no claim concerns directories).  A filesystem is an association list from
full path to an opaque content id; `writeF` overwrites. -/

abbrev FS := List (Str × Nat)

/-- Content stored at a path, if the file exists (`fs.readFileSync` view). -/
def lookupF (fs : FS) (p : Str) : Option Nat :=
  (fs.find? (fun e => decide (e.1 = p))).map (·.2)

/-- Remove every entry at path `p` (`fs.unlinkSync`). -/
def eraseF (fs : FS) (p : Str) : FS :=
  fs.filter (fun e => !decide (e.1 = p))

/-- Create or overwrite the file at `p` with content `v`. -/
def writeF (fs : FS) (p : Str) (v : Nat) : FS :=
  (p, v) :: eraseF fs p

/-- JavaScript `fs.existsSync`. -/
def existsF (fs : FS) (p : Str) : Bool :=
  fs.any (fun e => decide (e.1 = p))

/-- JavaScript `fs.renameSync src dst` (no-op when the source is absent;
in the modelled pipeline the source is always present at the call). -/
def renameF (fs : FS) (src dst : Str) : FS :=
  match lookupF fs src with
  | none => fs
  | some v => writeF (eraseF fs src) dst v

theorem existsF_cons (e : Str × Nat) (t : FS) (q : Str) :
    existsF (e :: t) q = (decide (e.1 = q) || existsF t q) := by
  simp [existsF]

theorem eraseF_cons (e : Str × Nat) (t : FS) (p : Str) :
    eraseF (e :: t) p = if e.1 = p then eraseF t p else e :: eraseF t p := by
  by_cases h : e.1 = p <;> simp [eraseF, List.filter_cons, h]

theorem lookupF_cons (e : Str × Nat) (t : FS) (q : Str) :
    lookupF (e :: t) q = if e.1 = q then some e.2 else lookupF t q := by
  by_cases h : e.1 = q
  · simp [lookupF, List.find?_cons_of_pos, h]
  · simp [lookupF, List.find?_cons_of_neg, h]

theorem existsF_eraseF_self (fs : FS) (p : Str) : existsF (eraseF fs p) p = false := by
  induction fs with
  | nil => rfl
  | cons e t ih =>
      rw [eraseF_cons]
      by_cases h : e.1 = p
      · rw [if_pos h]; exact ih
      · rw [if_neg h, existsF_cons]
        simp [h, ih]

theorem existsF_eraseF_ne (fs : FS) (p q : Str) (h : q ≠ p) :
    existsF (eraseF fs p) q = existsF fs q := by
  induction fs with
  | nil => rfl
  | cons e t ih =>
      rw [eraseF_cons]
      by_cases h1 : e.1 = p
      · have h2 : ¬ e.1 = q := by rw [h1]; exact fun hh => h hh.symm
        rw [if_pos h1, existsF_cons]
        simp [h2, ih]
      · rw [if_neg h1, existsF_cons, existsF_cons, ih]

theorem existsF_writeF_ne (fs : FS) (p q : Str) (v : Nat) (h : q ≠ p) :
    existsF (writeF fs p v) q = existsF fs q := by
  unfold writeF
  rw [existsF_cons]
  have h2 : ¬ p = q := fun hh => h hh.symm
  simp only [h2, decide_False, Bool.false_or]
  exact existsF_eraseF_ne fs p q h

theorem lookupF_eraseF_ne (fs : FS) (p q : Str) (h : q ≠ p) :
    lookupF (eraseF fs p) q = lookupF fs q := by
  induction fs with
  | nil => rfl
  | cons e t ih =>
      rw [eraseF_cons]
      by_cases h1 : e.1 = p
      · have h2 : ¬ e.1 = q := by rw [h1]; exact fun hh => h hh.symm
        rw [if_pos h1, lookupF_cons, if_neg h2, ih]
      · rw [if_neg h1, lookupF_cons, lookupF_cons, ih]

theorem lookupF_writeF_ne (fs : FS) (p q : Str) (v : Nat) (h : q ≠ p) :
    lookupF (writeF fs p v) q = lookupF fs q := by
  unfold writeF
  rw [lookupF_cons]
  have h2 : ¬ p = q := fun hh => h hh.symm
  rw [if_neg h2]
  exact lookupF_eraseF_ne fs p q h

theorem lookupF_eq_none_of_existsF_false (fs : FS) (p : Str)
    (h : existsF fs p = false) : lookupF fs p = none := by
  induction fs with
  | nil => rfl
  | cons e t ih =>
      rw [existsF_cons] at h
      by_cases h1 : e.1 = p
      · simp [h1] at h
      · simp only [h1, decide_False, Bool.false_or] at h
        rw [lookupF_cons, if_neg h1]
        exact ih h

theorem existsF_eq_false_of_lookupF_none (fs : FS) (p : Str)
    (h : lookupF fs p = none) : existsF fs p = false := by
  induction fs with
  | nil => rfl
  | cons e t ih =>
      rw [lookupF_cons] at h
      by_cases h1 : e.1 = p
      · rw [if_pos h1] at h; cases h
      · rw [if_neg h1] at h
        rw [existsF_cons]
        simp only [h1, decide_False, Bool.false_or]
        exact ih h

theorem existsF_renameF_src (fs : FS) (src dst : Str) :
    existsF (renameF fs src dst) src = false ∨ dst = src := by
  cases hl : lookupF fs src with
  | none =>
      left
      have hr : renameF fs src dst = fs := by simp only [renameF, hl]
      rw [hr]
      exact existsF_eq_false_of_lookupF_none fs src hl
  | some v =>
      by_cases hd : dst = src
      · right; exact hd
      · left
        have hr : renameF fs src dst = writeF (eraseF fs src) dst v := by
          simp only [renameF, hl]
        rw [hr, existsF_writeF_ne _ _ _ _ (fun hh => hd hh.symm), existsF_eraseF_self]

/-! ## Paths and final-name choice -/

/-- JavaScript `path.join(dir, name)` for a relative name. -/
def joinP (dir name : Str) : Str := dir ++ '/' :: name

/-- Temp media file name `videoId_temp.mp3` produced by the download step. -/
def tmpName (vid : Str) : Str := vid ++ ("_temp.mp3").data

/-- Full path of the temp media file in the playlist directory. -/
def tmpPath (dir vid : Str) : Str := joinP dir (tmpName vid)

/-- Final-path choice of `downloadSingle` (lines 302-307): candidate
`dir/safe.mp3`, and on collision `dir/safe_videoId.mp3`. -/
def choosePath (fs : FS) (dir safe vid : Str) : Str :=
  let finalPath := joinP dir (safe ++ (".mp3").data)
  if existsF fs finalPath then joinP dir (safe ++ '_' :: vid ++ (".mp3").data)
  else finalPath

theorem collision_ne_candidate (dir safe vid : Str) :
    joinP dir (safe ++ '_' :: vid ++ (".mp3").data) ≠ joinP dir (safe ++ (".mp3").data) := by
  intro h
  have := congrArg List.length h
  simp [joinP, List.length_append] at this

/-- C4: when the candidate final path `dir/safeTitle.mp3` already exists
the chosen path is `dir/safeTitle_itemId.mp3` and the pre-existing
candidate file keeps its content through the rename of the temp media
file (the temp file being a different file from the candidate); when the
candidate does not exist, the candidate itself is chosen. -/
theorem choosePath_collision_rule (fs : FS) (dir safe vid : Str) :
    (existsF fs (joinP dir (safe ++ (".mp3").data)) = true →
      choosePath fs dir safe vid = joinP dir (safe ++ '_' :: vid ++ (".mp3").data)) ∧
    (existsF fs (joinP dir (safe ++ (".mp3").data)) = false →
      choosePath fs dir safe vid = joinP dir (safe ++ (".mp3").data)) ∧
    (existsF fs (joinP dir (safe ++ (".mp3").data)) = true →
      tmpPath dir vid ≠ joinP dir (safe ++ (".mp3").data) →
      lookupF (renameF fs (tmpPath dir vid) (choosePath fs dir safe vid))
          (joinP dir (safe ++ (".mp3").data)) =
        lookupF fs (joinP dir (safe ++ (".mp3").data))) := by
  refine ⟨fun h => by simp [choosePath, h], fun h => by simp [choosePath, h], ?_⟩
  intro h hne
  have hch : choosePath fs dir safe vid = joinP dir (safe ++ '_' :: vid ++ (".mp3").data) := by
    simp [choosePath, h]
  rw [hch]
  cases hl : lookupF fs (tmpPath dir vid) with
  | none => simp only [renameF, hl]
  | some v =>
      have hr : renameF fs (tmpPath dir vid) (joinP dir (safe ++ '_' :: vid ++ (".mp3").data)) =
          writeF (eraseF fs (tmpPath dir vid)) (joinP dir (safe ++ '_' :: vid ++ (".mp3").data)) v := by
        simp only [renameF, hl]
      rw [hr]
      rw [lookupF_writeF_ne _ _ _ _ (fun hh => collision_ne_candidate dir safe vid hh.symm)]
      exact lookupF_eraseF_ne _ _ _ (fun hh => hne hh.symm)

/-- Concrete witness for C4, matching the testable property of the spec:
an existing `Track.mp3` with content 5, a temp file for item `abc123`;
the chosen path is `Track_abc123.mp3` and `Track.mp3` keeps content 5. -/
theorem choosePath_collision_rule_witness :
    choosePath [(("d/Track.mp3").data, 5), (("d/abc123_temp.mp3").data, 9)]
        ("d").data ("Track").data ("abc123").data = ("d/Track_abc123.mp3").data ∧
    lookupF (renameF [(("d/Track.mp3").data, 5), (("d/abc123_temp.mp3").data, 9)]
        (tmpPath ("d").data ("abc123").data)
        (choosePath [(("d/Track.mp3").data, 5), (("d/abc123_temp.mp3").data, 9)]
          ("d").data ("Track").data ("abc123").data))
        (("d/Track.mp3").data) =
      lookupF [(("d/Track.mp3").data, 5), (("d/abc123_temp.mp3").data, 9)]
        (("d/Track.mp3").data) := by
  have h := choosePath_collision_rule
    [(("d/Track.mp3").data, 5), (("d/abc123_temp.mp3").data, 9)]
    ("d").data ("Track").data ("abc123").data
  refine ⟨?_, h.2.2 (by decide) (by decide)⟩
  have h1 := h.1 (by decide)
  rw [h1]
  decide

/-! ## JavaScript string predicates and falsy defaults -/

/-- JavaScript `s.startsWith(p)`. -/
def jsStartsWith (s p : Str) : Bool := decide (s.take p.length = p)

/-- JavaScript `s.endsWith(p)` (suffix check, stated via `reverse` to ease
reasoning about names built by appending extensions). -/
def jsEndsWith (s p : Str) : Bool := decide (s.reverse.take p.length = p.reverse)

/-- Case-insensitive suffix check (for the `/\.(webp|png)$/i` regex);
`p` is given lowercase. -/
def jsEndsWithCI (s p : Str) : Bool :=
  decide ((s.reverse.take p.length).map Char.toLower = p.reverse)

/-- JavaScript `x || default` on a possibly absent string: `undefined`,
`null` and the empty string are falsy. -/
def jsOrStr (o : Option Str) (d : Str) : Str :=
  match o with
  | some s => if s.isEmpty then d else s
  | none => d

/-- JavaScript template interpolation of a possibly absent string
(`undefined` prints as the string "undefined"). -/
def jsStr (o : Option Str) : Str :=
  match o with
  | some s => s
  | none => ("undefined").data

/-! ## External records and oracle environment -/

/-- One entry of a flattened playlist listing: `{id, title?, url?}`.
All fields may be absent in the JSON produced by the external tool. -/
structure Entry where
  id : Option Str
  title : Option Str
  url : Option Str
deriving DecidableEq, Inhabited

/-- The record parsed from `--dump-single-json` at playlist level; for a
single video there is no `entries` array and the record itself plays the
role of the one entry. -/
structure Info where
  id : Option Str
  title : Option Str
  url : Option Str
  entries : Option (List Entry)
deriving DecidableEq, Inhabited

/-- The record of the per-item metadata re-fetch (line 293): `title` and
`uploader` may each be absent. -/
structure RInfo where
  title : Option Str
  uploader : Option Str
deriving DecidableEq, Inhabited

/-- Oracles for the external world: yt-dlp (resolve, re-fetch, download),
ffmpeg conversion and Jimp image decoding.  `dl` and the image oracles
take the retry-attempt index so that distinct attempts may behave
differently; a successful download returns the list of files it wrote
(full path and content id); a failed external call returns the error
message carried by the thrown `Error`. -/
structure Env where
  resolve : Str → Except Str Info
  refetch : Nat → Str → Except Str RInfo
  dl : Nat → Str → Str → Str → Option Str → Except Str (List (Str × Nat))
  ffmpeg : Nat → Str → Str → Except Str Nat
  imgDims : Nat → Str → Except Str (Nat × Nat)
  imgBuf : Nat → Nat
  cookiePaths : List Str

/-! ## Thumbnail processor (`processThumbnail`, lines 326-360) -/

/-- Geometry of the centered square crop and fixed resize of
`processThumbnail` (lines 347-352): side `min(width, height)`, origin
`((width-side)/2, (height-side)/2)` with floor division, resize target
720 by 720. -/
structure CropGeom where
  size : Nat
  x : Nat
  y : Nat
  outW : Nat
  outH : Nat
deriving DecidableEq

/-- The pure geometry computed by `processThumbnail` from the decoded
image dimensions. -/
def cropGeom (w h : Nat) : CropGeom :=
  { size := min w h
    x := (w - min w h) / 2
    y := (h - min w h) / 2
    outW := 720
    outH := 720 }

/-- Result of `processThumbnail`: the crop geometry it applied and the
JPEG buffer it returned (`getBuffer('image/jpeg')`). -/
structure ThumbRes where
  geom : CropGeom
  buf : Nat
deriving DecidableEq

/-- The `imagePath.replace(/\.(webp|png)$/i, '.jpg')` step (line 330). -/
def jsReplaceExtJpg (p : Str) : Str :=
  if jsEndsWithCI p (".webp").data then p.take (p.length - 5) ++ (".jpg").data
  else if jsEndsWithCI p (".png").data then p.take (p.length - 4) ++ (".jpg").data
  else p

/-- `processThumbnail(imagePath)` (lines 326-360): convert to JPEG via
ffmpeg when the extension is webp or png (deleting the original), decode
dimensions, crop a centered square of side `min(w, h)`, resize to
720 by 720, encode as JPEG, delete the intermediate JPEG file.  Any
failing external step throws, leaving the filesystem as mutated so far.
This is the conversion stage (lines 330-339): when the extension is webp
or png, run ffmpeg to produce the JPEG and delete the original if it
still exists; `execSync` throws on ffmpeg failure. -/
def thumbConvert (env : Env) (n : Nat) (fs : FS) (imagePath jpegPath : Str) :
    FS × Except Str Unit :=
  if imagePath = jpegPath then (fs, Except.ok ())
  else
    match env.ffmpeg n imagePath jpegPath with
    | Except.error e => (fs, Except.error e)
    | Except.ok content =>
        let fsA := writeF fs jpegPath content
        let fsB := if existsF fsA imagePath then eraseF fsA imagePath else fsA
        (fsB, Except.ok ())

/-- `processThumbnail(imagePath)` (lines 326-360): convert to JPEG when
needed, decode dimensions with Jimp, crop the centered square, resize to
720 by 720, encode as JPEG, delete the intermediate JPEG file. -/
def processThumbnail (env : Env) (n : Nat) (fs : FS) (imagePath : Str) :
    FS × Except Str ThumbRes :=
  let jpegPath := jsReplaceExtJpg imagePath
  match thumbConvert env n fs imagePath jpegPath with
  | (fs1, Except.error e) => (fs1, Except.error e)
  | (fs1, Except.ok _) =>
      match env.imgDims n jpegPath with
      | Except.error e => (fs1, Except.error e)
      | Except.ok wh =>
          let g := cropGeom wh.1 wh.2
          let b := env.imgBuf n
          let fs2 := if existsF fs1 jpegPath then eraseF fs1 jpegPath else fs1
          (fs2, Except.ok { geom := g, buf := b })

/-- C7: thumbnail normalization crops a centered square of side
min(w, h) at origin (floor((w-side)/2), floor((h-side)/2)) and resizes
to exactly 720 by 720 (JPEG); for a 1920 by 1080 input the crop is the
1080 square at origin (420, 0); and whatever geometry `processThumbnail`
returns on success is exactly `cropGeom` of the decoded dimensions. -/
theorem processThumbnail_center_crop :
    (∀ w h : Nat, cropGeom w h =
      { size := min w h, x := (w - min w h) / 2, y := (h - min w h) / 2,
        outW := 720, outH := 720 }) ∧
    cropGeom 1920 1080 = { size := 1080, x := 420, y := 0, outW := 720, outH := 720 } ∧
    (∀ (env : Env) (n : Nat) (fs fs2 : FS) (p : Str) (r : ThumbRes) (w h : Nat),
      processThumbnail env n fs p = (fs2, Except.ok r) →
      env.imgDims n (jsReplaceExtJpg p) = Except.ok (w, h) →
      r.geom = cropGeom w h) := by
  refine ⟨fun w h => rfl, by decide, ?_⟩
  intro env n fs fs2 p r w h hok hdim
  simp only [processThumbnail] at hok
  cases hconv : thumbConvert env n fs p (jsReplaceExtJpg p) with
  | mk fs1 cres =>
      rw [hconv] at hok
      cases cres with
      | error e => simp at hok
      | ok u =>
          rw [hdim] at hok
          simp at hok
          rw [← hok.2]

/-- Oracle environment for the thumbnail witness: Jimp decodes a
1920 by 1080 image; every other external call fails. -/
def envC7 : Env :=
  { resolve := fun _ => Except.error []
    refetch := fun _ _ => Except.error []
    dl := fun _ _ _ _ _ => Except.error []
    ffmpeg := fun _ _ _ => Except.error []
    imgDims := fun _ _ => Except.ok (1920, 1080)
    imgBuf := fun _ => 0
    cookiePaths := [] }

/-- Witness for C7 at a concrete input: a JPEG thumbnail decoding to
1920 by 1080 is cropped with the 1080 square at origin (420, 0). -/
theorem processThumbnail_center_crop_witness :
    processThumbnail envC7 0 [] ("a.jpg").data =
      ([], Except.ok { geom := cropGeom 1920 1080, buf := 0 }) ∧
    ({ geom := cropGeom 1920 1080, buf := 0 } : ThumbRes).geom = cropGeom 1920 1080 := by
  refine ⟨rfl, ?_⟩
  exact processThumbnail_center_crop.2.2 envC7 0 [] []
    ("a.jpg").data { geom := cropGeom 1920 1080, buf := 0 } 1920 1080 rfl rfl

/-! ## Concurrency limiter (`createLimiter`, lines 54-73)

The limiter closure is modelled as a state machine driven by two kinds of
events of the single-threaded event loop: `submit i` (the returned
function is called for task `i`: the task is pushed onto the queue and
`next()` runs once) and `settle i` (the promise of the running task `i`
settles: the `finally` handler decrements the active count, records the
outcome passed through by `then`/`catch`, and `next()` runs once).  Each
`next()` call admits at most one queued task, exactly as in the source.
Ghost fields `admitted`, `submitted` and `settled` record histories; the
outcome each task's own promise would settle with is the oracle
`okf` (true for fulfilled, false for rejected). -/

inductive LEv where
  | submit (i : Nat)
  | settle (i : Nat)
deriving DecidableEq

structure LState where
  running : List Nat
  queued : List Nat
  admitted : List Nat
  submitted : List Nat
  settled : List (Nat × Bool)
deriving DecidableEq

/-- The body of `next()` (lines 58-67): if the queue is nonempty and
`activeCount < concurrency`, shift the head of the queue and start it. -/
def tryAdmit (K : Nat) (s : LState) : LState :=
  match s.queued with
  | [] => s
  | t :: rest =>
      if s.running.length < K then
        { s with running := s.running ++ [t], queued := rest,
                 admitted := s.admitted ++ [t] }
      else s

/-- One event of the limiter: a submission pushes and runs `next()` once;
a settlement of a running task removes it, records its own outcome
(`fn().then(resolve).catch(reject)` passes the task's result or error
through unchanged) and runs `next()` once. -/
def lstep (K : Nat) (okf : Nat → Bool) (s : LState) : LEv → LState
  | LEv.submit i =>
      tryAdmit K { s with queued := s.queued ++ [i], submitted := s.submitted ++ [i] }
  | LEv.settle i =>
      if i ∈ s.running then
        tryAdmit K { s with running := s.running.erase i,
                            settled := s.settled ++ [(i, okf i)] }
      else s

def linit : LState := { running := [], queued := [], admitted := [], submitted := [], settled := [] }

/-- Run the limiter over a sequence of event-loop events. -/
def lrun (K : Nat) (okf : Nat → Bool) (evs : List LEv) : LState :=
  evs.foldl (lstep K okf) linit

theorem tryAdmit_running_le (K : Nat) (s : LState) (h : s.running.length ≤ K) :
    (tryAdmit K s).running.length ≤ K := by
  unfold tryAdmit
  cases hq : s.queued with
  | nil => exact h
  | cons t rest =>
      by_cases hlt : s.running.length < K
      · simp only [hlt, if_true]
        simp [List.length_append]
        omega
      · simp only [hlt, if_false]
        exact h

theorem lstep_running_le (K : Nat) (okf : Nat → Bool) (s : LState) (e : LEv)
    (h : s.running.length ≤ K) : (lstep K okf s e).running.length ≤ K := by
  cases e with
  | submit i => exact tryAdmit_running_le K _ h
  | settle i =>
      unfold lstep
      by_cases hm : i ∈ s.running
      · simp only [hm, if_true]
        exact tryAdmit_running_le K _ (le_trans (List.length_erase_le _ _) h)
      · simp only [hm, if_false]
        exact h

theorem lrun_running_le (K : Nat) (okf : Nat → Bool) (evs : List LEv) :
    (lrun K okf evs).running.length ≤ K := by
  suffices hgen : ∀ s : LState, s.running.length ≤ K →
      (evs.foldl (lstep K okf) s).running.length ≤ K by
    exact hgen linit (by simp [linit])
  induction evs with
  | nil => intro s h; exact h
  | cons e t ih =>
      intro s h
      exact ih _ (lstep_running_le K okf s e h)

theorem tryAdmit_fifo (K : Nat) (s : LState)
    (h : s.admitted ++ s.queued = s.submitted) :
    (tryAdmit K s).admitted ++ (tryAdmit K s).queued = (tryAdmit K s).submitted := by
  unfold tryAdmit
  cases hq : s.queued with
  | nil => exact h
  | cons t rest =>
      by_cases hlt : s.running.length < K
      · simp only [hlt, if_true]
        rw [← h, hq]
        simp
      · simp only [hlt, if_false]
        exact h

theorem lstep_fifo (K : Nat) (okf : Nat → Bool) (s : LState) (e : LEv)
    (h : s.admitted ++ s.queued = s.submitted) :
    (lstep K okf s e).admitted ++ (lstep K okf s e).queued = (lstep K okf s e).submitted := by
  cases e with
  | submit i =>
      refine tryAdmit_fifo K _ ?_
      simp only
      rw [← List.append_assoc, h]
  | settle i =>
      unfold lstep
      by_cases hm : i ∈ s.running
      · simp only [hm, if_true]
        exact tryAdmit_fifo K _ h
      · simp only [hm, if_false]
        exact h

theorem lrun_fifo (K : Nat) (okf : Nat → Bool) (evs : List LEv) :
    (lrun K okf evs).admitted ++ (lrun K okf evs).queued = (lrun K okf evs).submitted := by
  suffices hgen : ∀ s : LState, s.admitted ++ s.queued = s.submitted →
      (evs.foldl (lstep K okf) s).admitted ++ (evs.foldl (lstep K okf) s).queued =
        (evs.foldl (lstep K okf) s).submitted by
    exact hgen linit (by simp [linit])
  induction evs with
  | nil => intro s h; exact h
  | cons e t ih =>
      intro s h
      exact ih _ (lstep_fifo K okf s e h)

theorem lstep_settle_admits (K : Nat) (okf : Nat → Bool) (s : LState) (i t : Nat)
    (rest : List Nat) (hm : i ∈ s.running) (hq : s.queued = t :: rest)
    (hle : s.running.length ≤ K) :
    (lstep K okf s (LEv.settle i)).admitted = s.admitted ++ [t] := by
  unfold lstep
  simp only [hm, if_true]
  unfold tryAdmit
  simp only [hq]
  have h1 : 1 ≤ s.running.length := by
    cases hr : s.running with
    | nil => rw [hr] at hm; cases hm
    | cons a l => simp [hr]
  have hlen : (s.running.erase i).length < K := by
    rw [List.length_erase_of_mem hm]
    omega
  simp only [hlen, if_true]

theorem tryAdmit_settled (K : Nat) (s : LState) :
    (tryAdmit K s).settled = s.settled := by
  unfold tryAdmit
  cases hq : s.queued with
  | nil => rfl
  | cons t rest => by_cases hlt : s.running.length < K <;> simp [hlt]

theorem tryAdmit_running_mem (K : Nat) (s : LState) (j : Nat)
    (hj : j ∈ s.running) : j ∈ (tryAdmit K s).running := by
  unfold tryAdmit
  cases hq : s.queued with
  | nil => exact hj
  | cons t rest =>
      by_cases hlt : s.running.length < K
      · simp only [hlt, if_true]
        exact List.mem_append_left _ hj
      · simp only [hlt, if_false]
        exact hj

theorem lstep_settled_own (K : Nat) (okf : Nat → Bool) (s : LState) (e : LEv)
    (h : s.settled.all (fun p => p.2 == okf p.1) = true) :
    (lstep K okf s e).settled.all (fun p => p.2 == okf p.1) = true := by
  cases e with
  | submit i =>
      unfold lstep
      rw [tryAdmit_settled]
      exact h
  | settle i =>
      unfold lstep
      by_cases hm : i ∈ s.running
      · simp only [hm, if_true]
        rw [tryAdmit_settled]
        simp only [List.all_append, h, Bool.true_and]
        simp
      · simp only [hm, if_false]
        exact h

theorem lrun_settled_own (K : Nat) (okf : Nat → Bool) (evs : List LEv) :
    (lrun K okf evs).settled.all (fun p => p.2 == okf p.1) = true := by
  suffices hgen : ∀ s : LState, s.settled.all (fun p => p.2 == okf p.1) = true →
      ((evs.foldl (lstep K okf) s).settled.all (fun p => p.2 == okf p.1)) = true by
    exact hgen linit (by simp [linit])
  induction evs with
  | nil => intro s h; exact h
  | cons e t ih =>
      intro s h
      exact ih _ (lstep_settled_own K okf s e h)

theorem lstep_settle_records_own (K : Nat) (okf : Nat → Bool) (s : LState) (i : Nat)
    (hm : i ∈ s.running) :
    (lstep K okf s (LEv.settle i)).settled = s.settled ++ [(i, okf i)] := by
  unfold lstep
  simp only [hm, if_true]
  rw [tryAdmit_settled]

theorem lstep_settle_sibling (K : Nat) (okf : Nat → Bool) (s : LState) (i j : Nat)
    (hj : j ∈ s.running) (hne : j ≠ i) :
    j ∈ (lstep K okf s (LEv.settle i)).running := by
  unfold lstep
  by_cases hm : i ∈ s.running
  · simp only [hm, if_true]
    exact tryAdmit_running_mem K _ j ((List.mem_erase_of_ne hne).mpr hj)
  · simp only [hm, if_false]
    exact hj

/-- C1: for every ceiling K of at least 1 and every event sequence of
submissions and settlements, the limiter of `createLimiter(K)` keeps at
most K tasks running, the admitted tasks followed by the still-queued
tasks are exactly the submitted tasks in submission order (strict FIFO
admission), and when a running task settles while the queue is nonempty
the head of the queue is admitted in that very event. -/
theorem createLimiter_bounded_fifo_immediate (K : Nat) (okf : Nat → Bool)
    (evs : List LEv) (i t : Nat) (rest : List Nat) (hK : 1 ≤ K)
    (hm : i ∈ (lrun K okf evs).running)
    (hq : (lrun K okf evs).queued = t :: rest) :
    (lrun K okf evs).running.length ≤ K ∧
    (lrun K okf evs).admitted ++ (lrun K okf evs).queued = (lrun K okf evs).submitted ∧
    (lstep K okf (lrun K okf evs) (LEv.settle i)).admitted =
      (lrun K okf evs).admitted ++ [t] :=
  ⟨lrun_running_le K okf evs, lrun_fifo K okf evs,
    lstep_settle_admits K okf _ i t rest hm hq (lrun_running_le K okf evs)⟩

/-- Witness for C1: ceiling 1, burst of two submissions; task 0 runs,
task 1 queues, and settling task 0 admits task 1 immediately. -/
theorem createLimiter_bounded_fifo_immediate_witness :
    (lrun 1 (fun _ => true) [LEv.submit 0, LEv.submit 1]).running.length ≤ 1 ∧
    (lrun 1 (fun _ => true) [LEv.submit 0, LEv.submit 1]).admitted ++
        (lrun 1 (fun _ => true) [LEv.submit 0, LEv.submit 1]).queued =
      (lrun 1 (fun _ => true) [LEv.submit 0, LEv.submit 1]).submitted ∧
    (lstep 1 (fun _ => true) (lrun 1 (fun _ => true) [LEv.submit 0, LEv.submit 1])
        (LEv.settle 0)).admitted =
      (lrun 1 (fun _ => true) [LEv.submit 0, LEv.submit 1]).admitted ++ [1] :=
  createLimiter_bounded_fifo_immediate 1 (fun _ => true)
    [LEv.submit 0, LEv.submit 1] 0 1 [] (by decide) (by decide) (by decide)

/-- C5: every recorded settlement carries the settling task's own outcome
(the promise returned by the limiter rejects with that task's own error
when the task fails); when a failing running task settles, a sibling
running task stays running, and the head of the queue is still admitted
in that very event, so the limiter neither cancels admitted tasks nor
halts after a failure. -/
theorem createLimiter_failure_isolated (K : Nat) (okf : Nat → Bool)
    (evs : List LEv) (i j t : Nat) (rest : List Nat)
    (hfail : okf i = false)
    (hi : i ∈ (lrun K okf evs).running)
    (hj : j ∈ (lrun K okf evs).running) (hne : j ≠ i)
    (hq : (lrun K okf evs).queued = t :: rest) :
    (lrun K okf evs).settled.all (fun p => p.2 == okf p.1) = true ∧
    (lstep K okf (lrun K okf evs) (LEv.settle i)).settled =
      (lrun K okf evs).settled ++ [(i, false)] ∧
    j ∈ (lstep K okf (lrun K okf evs) (LEv.settle i)).running ∧
    (lstep K okf (lrun K okf evs) (LEv.settle i)).admitted =
      (lrun K okf evs).admitted ++ [t] :=
  ⟨lrun_settled_own K okf evs,
    by rw [lstep_settle_records_own K okf _ i hi, hfail],
    lstep_settle_sibling K okf _ i j hj hne,
    lstep_settle_admits K okf _ i t rest hi hq (lrun_running_le K okf evs)⟩

/-- Witness for C5: ceiling 2, three submissions, every task failing;
settling failing task 0 records its own rejection, keeps task 1 running
and admits queued task 2. -/
theorem createLimiter_failure_isolated_witness :
    (lrun 2 (fun _ => false) [LEv.submit 0, LEv.submit 1, LEv.submit 2]).settled.all
        (fun p => p.2 == (fun _ => false) p.1) = true ∧
    (lstep 2 (fun _ => false)
        (lrun 2 (fun _ => false) [LEv.submit 0, LEv.submit 1, LEv.submit 2])
        (LEv.settle 0)).settled =
      (lrun 2 (fun _ => false) [LEv.submit 0, LEv.submit 1, LEv.submit 2]).settled ++
        [(0, false)] ∧
    1 ∈ (lstep 2 (fun _ => false)
        (lrun 2 (fun _ => false) [LEv.submit 0, LEv.submit 1, LEv.submit 2])
        (LEv.settle 0)).running ∧
    (lstep 2 (fun _ => false)
        (lrun 2 (fun _ => false) [LEv.submit 0, LEv.submit 1, LEv.submit 2])
        (LEv.settle 0)).admitted =
      (lrun 2 (fun _ => false) [LEv.submit 0, LEv.submit 1, LEv.submit 2]).admitted ++ [2] :=
  createLimiter_failure_isolated 2 (fun _ => false)
    [LEv.submit 0, LEv.submit 1, LEv.submit 2] 0 1 2 [] rfl (by decide) (by decide)
    (by decide) (by decide)

/-! ## Item download pipeline (`downloadSingle`, lines 193-324) -/

/-- JavaScript `fs.readdirSync(dir)`: names of the files directly inside
`dir`, in filesystem order. -/
def readdirNames (fs : FS) (dir : Str) : List Str :=
  fs.filterMap (fun e =>
    if e.1.take (dir.length + 1) = dir ++ ['/'] then
      let name := e.1.drop (dir.length + 1)
      if name.contains '/' then none else some name
    else none)

/-- The thumbnail search of lines 254-255: first directory entry whose
name starts with `videoId_temp` and does not end with `.mp3`. -/
def findThumbName (fs : FS) (dir vid : Str) : Option Str :=
  (readdirNames fs dir).find?
    (fun f => jsStartsWith f (vid ++ ("_temp").data) && !(jsEndsWith f (".mp3").data))

/-- The thumbnail block of lines 257-266: when a temp thumbnail exists,
process it and delete the original (line 262; tolerated when the
processor already deleted it, since the failure of `unlinkSync` would be
caught by the same `catch`); a thumbnail-processing error is logged and
the pipeline continues without a buffer. -/
def thumbStage (env : Env) (n : Nat) (fs : FS) (dir vid : Str) : FS × Option Nat :=
  match findThumbName fs dir vid with
  | none => (fs, none)
  | some f =>
      let full := joinP dir f
      match processThumbnail env n fs full with
      | (fs1, Except.ok r) =>
          (if existsF fs1 full then eraseF fs1 full else fs1, some r.buf)
      | (fs1, Except.error _) => (fs1, none)

/-- The metadata re-fetch of lines 289-298: on success the (possibly
absent) `title` and `uploader` fields overwrite the initial values; only
when the re-fetch itself throws do the "Unknown" sentinels survive. -/
def metaStage (env : Env) (n : Nat) (url : Str) : Option Str × Option Str :=
  match env.refetch n url with
  | Except.ok ri => (ri.title, ri.uploader)
  | Except.error _ => (some ("Unknown").data, some ("Unknown").data)

/-- Rename and tagging of lines 300-323.  When the re-fetched record has
no `title`, `videoTitle` is `undefined` and `videoTitle.replace` throws a
TypeError before the rename.  With a title, the name is sanitized, the
collision-checked final path chosen, and the temp media file renamed to
it; `nodeID3.write` only writes tags inside the file and is not modelled
as a filesystem change.  The chosen final path is returned as the
observable result of finalization. -/
def finalizeStage (fs : FS) (dir vid : Str) (titleOpt : Option Str) :
    FS × Except Str Str :=
  match titleOpt with
  | none => (fs, Except.error ("TypeError: videoTitle.replace is not a function").data)
  | some t =>
      let safe := sanitize t
      let fp := choosePath fs dir safe vid
      (renameF fs (tmpPath dir vid) fp, Except.ok fp)

/-- The strategy table of lines 213-216. -/
def strategies : List (Str × Str) :=
  [(("android").data, ("bestaudio/best").data), (("web").data, ("bestaudio/best").data)]

/-- The strategy loop of lines 218-243: try each strategy until one
succeeds, remembering the last error; a success applies the files the
external download wrote; exhausting all strategies throws the last error
(or the generic message for an empty table). -/
def stratLoop (env : Env) (n : Nat) (url : Str) (cook : Option Str) :
    List (Str × Str) → FS → Option Str → FS × Except Str Unit
  | [], fs, lastErr =>
      (fs, Except.error (match lastErr with
        | some e => e
        | none => ("All download strategies failed").data))
  | s :: rest, fs, lastErr =>
      match env.dl n url s.1 s.2 cook with
      | Except.ok files => (files.foldl (fun a e => writeF a e.1 e.2) fs, Except.ok ())
      | Except.error e => stratLoop env n url cook rest fs (some e)

/-- The cookie search of lines 198-210: first existing candidate path. -/
def cookiePick (env : Env) (fs : FS) : Option Str :=
  env.cookiePaths.find? (fun p => existsF fs p)

/-- `downloadSingle(url, dir, videoId)` (lines 193-324): cookie pick,
strategy loop, check that `videoId_temp.mp3` exists, thumbnail stage,
metadata re-fetch, sanitize + collision-checked rename, tagging. -/
def downloadSingle (env : Env) (n : Nat) (fs : FS) (url dir vid : Str) :
    FS × Except Str Str :=
  let cook := cookiePick env fs
  match stratLoop env n url cook strategies fs none with
  | (fs1, Except.error e) => (fs1, Except.error e)
  | (fs1, Except.ok _) =>
      if existsF fs1 (tmpPath dir vid) then
        let st := thumbStage env n fs1 dir vid
        let meta := metaStage env n url
        finalizeStage st.1 dir vid meta.1
      else (fs1, Except.error ("Downloaded file not found").data)

theorem joinP_inj (dir a b : Str) (h : joinP dir a = joinP dir b) : a = b := by
  unfold joinP at h
  have h2 := List.append_cancel_left h
  exact List.tail_eq_of_cons_eq h2

theorem tmpPath_eq (dir vid : Str) :
    tmpPath dir vid = (dir ++ '/' :: vid) ++ ("_temp.mp3").data := by
  simp [tmpPath, joinP, tmpName]

theorem jsEndsWith_tmpName (vid : Str) :
    jsEndsWith (tmpName vid) (".mp3").data = true := by
  unfold jsEndsWith tmpName
  rw [List.reverse_append]
  rfl

theorem jpg_ne_tmp (a b : Str) : a ++ (".jpg").data ≠ b ++ ("_temp.mp3").data := by
  intro h
  have h2 := congrArg List.reverse h
  rw [List.reverse_append, List.reverse_append] at h2
  have h3 := congrArg List.head? h2
  simp at h3

theorem jsReplaceExtJpg_cases (p : Str) :
    jsReplaceExtJpg p = p ∨ ∃ a : Str, jsReplaceExtJpg p = a ++ (".jpg").data := by
  unfold jsReplaceExtJpg
  by_cases h1 : jsEndsWithCI p (".webp").data = true
  · right
    exact ⟨p.take (p.length - 5), by rw [if_pos h1]⟩
  · by_cases h2 : jsEndsWithCI p (".png").data = true
    · right
      exact ⟨p.take (p.length - 4), by rw [if_neg h1, if_pos h2]⟩
    · left
      rw [if_neg h1, if_neg h2]

theorem thumbConvert_keeps (env : Env) (n : Nat) (fs : FS) (full jpegPath tmp : Str)
    (hfull : full ≠ tmp) (hjpeg : jpegPath ≠ tmp) (hex : existsF fs tmp = true) :
    existsF (thumbConvert env n fs full jpegPath).1 tmp = true := by
  unfold thumbConvert
  by_cases heq : full = jpegPath
  · rw [if_pos heq]; exact hex
  · rw [if_neg heq]
    cases hff : env.ffmpeg n full jpegPath with
    | error e => exact hex
    | ok content =>
        dsimp only
        have hA : existsF (writeF fs jpegPath content) tmp = true := by
          rw [existsF_writeF_ne _ _ _ _ (fun hh => hjpeg hh.symm)]
          exact hex
        by_cases hx : existsF (writeF fs jpegPath content) full = true
        · rw [if_pos hx]
          rw [existsF_eraseF_ne _ _ _ (fun hh => hfull hh.symm)]
          exact hA
        · rw [if_neg hx]
          exact hA

theorem processThumbnail_keeps (env : Env) (n : Nat) (fs : FS) (full tmp : Str)
    (hfull : full ≠ tmp) (hjpeg : jsReplaceExtJpg full ≠ tmp)
    (hex : existsF fs tmp = true) :
    existsF (processThumbnail env n fs full).1 tmp = true := by
  simp only [processThumbnail]
  cases hconv : thumbConvert env n fs full (jsReplaceExtJpg full) with
  | mk fs1 cres =>
      have h1 : existsF fs1 tmp = true := by
        have hh := thumbConvert_keeps env n fs full (jsReplaceExtJpg full) tmp hfull hjpeg hex
        rw [hconv] at hh
        exact hh
      cases cres with
      | error e => exact h1
      | ok u =>
          cases env.imgDims n (jsReplaceExtJpg full) with
          | error e => exact h1
          | ok wh =>
              dsimp only
              by_cases hx : existsF fs1 (jsReplaceExtJpg full) = true
              · rw [if_pos hx, existsF_eraseF_ne _ _ _ (fun hh => hjpeg hh.symm)]
                exact h1
              · rw [if_neg hx]
                exact h1

theorem thumbStage_keeps (env : Env) (n : Nat) (fs : FS) (dir vid : Str)
    (hex : existsF fs (tmpPath dir vid) = true) :
    existsF (thumbStage env n fs dir vid).1 (tmpPath dir vid) = true := by
  unfold thumbStage
  cases hf : findThumbName fs dir vid with
  | none => exact hex
  | some f =>
      have hpred := List.find?_some hf
      have hnend : jsEndsWith f (".mp3").data = false := by
        have h2 := (Bool.and_eq_true _ _).mp hpred
        cases hval : jsEndsWith f (".mp3").data with
        | false => rfl
        | true => rw [hval] at h2; simp at h2
      have hfull : joinP dir f ≠ tmpPath dir vid := by
        intro h
        have hfe : f = tmpName vid := joinP_inj dir f (tmpName vid) h
        rw [hfe, jsEndsWith_tmpName] at hnend
        cases hnend
      have hjpeg : jsReplaceExtJpg (joinP dir f) ≠ tmpPath dir vid := by
        rcases jsReplaceExtJpg_cases (joinP dir f) with hcase | ⟨a, hcase⟩
        · rw [hcase]; exact hfull
        · rw [hcase, tmpPath_eq]
          exact jpg_ne_tmp a (dir ++ '/' :: vid)
      cases hpt : processThumbnail env n fs (joinP dir f) with
      | mk fs1 r =>
          dsimp only
          rw [hpt]
          have h1 : existsF fs1 (tmpPath dir vid) = true := by
            have hh := processThumbnail_keeps env n fs (joinP dir f) (tmpPath dir vid)
              hfull hjpeg hex
            rw [hpt] at hh
            exact hh
          cases r with
          | ok rr =>
              dsimp only
              by_cases hx : existsF fs1 (joinP dir f) = true
              · rw [if_pos hx, existsF_eraseF_ne _ _ _ (fun hh => hfull hh.symm)]
                exact h1
              · rw [if_neg hx]
                exact h1
          | error e => exact h1

theorem downloadSingle_ok_removes_tmp (env : Env) (n : Nat) (fs fs2 : FS)
    (url dir vid : Str) (fp : Str)
    (hok : downloadSingle env n fs url dir vid = (fs2, Except.ok fp)) :
    existsF fs2 (tmpPath dir vid) = false ∨ fp = tmpPath dir vid := by
  unfold downloadSingle at hok
  dsimp only at hok
  cases hstr : stratLoop env n url (cookiePick env fs) strategies fs none with
  | mk fs1 res =>
      rw [hstr] at hok
      cases res with
      | error e => simp at hok
      | ok u =>
          dsimp only at hok
          by_cases hex : existsF fs1 (tmpPath dir vid) = true
          · rw [if_pos hex] at hok
            unfold finalizeStage at hok
            cases hmt : (metaStage env n url).1 with
            | none => rw [hmt] at hok; simp at hok
            | some t =>
                rw [hmt] at hok
                dsimp only at hok
                have hfs2 : fs2 = renameF (thumbStage env n fs1 dir vid).1 (tmpPath dir vid)
                    (choosePath (thumbStage env n fs1 dir vid).1 dir (sanitize t) vid) := by
                  exact (Prod.mk.injEq _ _ _ _ ▸ hok).1.symm
                have hfp : fp = choosePath (thumbStage env n fs1 dir vid).1 dir (sanitize t) vid := by
                  have h2 := (Prod.mk.injEq _ _ _ _ ▸ hok).2
                  exact (Except.ok.injEq _ _ ▸ h2).symm
                rw [hfs2, hfp]
                exact existsF_renameF_src _ _ _
          · rw [if_neg hex] at hok
            simp at hok

/-! ## Retry controller (`downloadItemWithRetry`, lines 163-191) -/

/-- Log lines emitted by the retry controller. -/
inductive LogLine where
  | processing (title : Str)
  | retryNote (i : Nat) (title : Str)
  | failedAttempt (n : Nat) (title : Str) (msg : Str)
  | permFailure (title : Str)
deriving DecidableEq

/-- Outcome of one item's retry loop: number of `downloadSingle` calls,
whether one succeeded, the final path of the successful attempt, and the
emitted log lines in order. -/
structure RetryRes where
  attempts : Nat
  success : Bool
  finalPath : Option Str
  logs : List LogLine
deriving DecidableEq

/-- The `entry.url || watch?v=id` fallback (line 165). -/
def entryUrl (e : Entry) : Str :=
  jsOrStr e.url (("https://www.youtube.com/watch?v=").data ++ jsStr e.id)

/-- The `entry.title || "Unknown"` fallback (line 164). -/
def entryTitle (e : Entry) : Str :=
  jsOrStr e.title ("Unknown").data

/-- The retry loop of lines 171-186: up to `fuel` remaining iterations,
`i` the current attempt index, accumulating the filesystem, the attempt
count and the log; stops early on success (`if (success) break`), logs
per-attempt failure lines, and after exhaustion logs the permanent
failure line (lines 188-190). -/
def retryGo (env : Env) (url dir vid title : Str) :
    Nat → Nat → FS → Nat → List LogLine → FS × RetryRes
  | 0, _, fs, a, logs =>
      (fs, { attempts := a, success := false, finalPath := none,
             logs := logs ++ [LogLine.permFailure title] })
  | fuel + 1, i, fs, a, logs =>
      let line := if 0 < i then LogLine.retryNote i title else LogLine.processing title
      match downloadSingle env i fs url dir vid with
      | (fs1, Except.ok fp) =>
          (fs1, { attempts := a + 1, success := true, finalPath := some fp,
                  logs := logs ++ [line] })
      | (fs1, Except.error e) =>
          retryGo env url dir vid title fuel (i + 1) fs1 (a + 1)
            (logs ++ [line, LogLine.failedAttempt (i + 1) title e])

/-- `downloadItemWithRetry(entry, dir, ...)` (lines 163-191): three
attempts of `downloadSingle`; the function itself never raises (all
errors of an attempt are caught by the `catch` of the loop body). -/
def downloadItemWithRetry (env : Env) (fs : FS) (e : Entry) (dir : Str) :
    FS × RetryRes :=
  retryGo env (entryUrl e) dir (jsStr e.id) (entryTitle e) 3 0 fs 0 []

/-- Number of permanent-failure lines in a log. -/
def permCount (logs : List LogLine) : Nat :=
  (logs.filter (fun l => match l with | LogLine.permFailure _ => true | _ => false)).length

theorem retryGo_success_last (env : Env) (url dir vid title : Str) :
    ∀ (fuel i a : Nat) (fs fs2 : FS) (logs : List LogLine) (r : RetryRes),
      retryGo env url dir vid title fuel i fs a logs = (fs2, r) →
      r.success = true →
      ∃ (n0 : Nat) (fsb : FS) (fp : Str),
        downloadSingle env n0 fsb url dir vid = (fs2, Except.ok fp) ∧
        r.finalPath = some fp := by
  intro fuel
  induction fuel with
  | zero =>
      intro i a fs fs2 logs r hrun hs
      unfold retryGo at hrun
      have hr := (Prod.mk.injEq _ _ _ _ ▸ hrun).2
      rw [← hr] at hs
      simp at hs
  | succ fuel ih =>
      intro i a fs fs2 logs r hrun hs
      unfold retryGo at hrun
      cases hds : downloadSingle env i fs url dir vid with
      | mk fs1 res =>
          rw [hds] at hrun
          cases res with
          | ok fp =>
              dsimp only at hrun
              have h1 := (Prod.mk.injEq _ _ _ _ ▸ hrun).1
              have h2 := (Prod.mk.injEq _ _ _ _ ▸ hrun).2
              refine ⟨i, fs, fp, ?_, ?_⟩
              · rw [h1] at hds
                exact hds
              · rw [← h2]
          | error e =>
              dsimp only at hrun
              exact ih (i + 1) (a + 1) fs1 fs2 _ r hrun hs

/-- C9 (amended): when an item's pipeline finishes in Success, the temp
media file `itemId_temp.mp3` no longer exists in the playlist directory
(the finalizing rename moved it away), except in the degenerate case
where the chosen final path is the temp path itself.  After a
PermanentFailure an orphaned temp media file may remain: see the
counterexample, where every attempt fails between producing the media
and the rename. -/
theorem downloadItemWithRetry_success_no_temp (env : Env) (fs fs2 : FS) (e : Entry)
    (dir : Str) (r : RetryRes)
    (hrun : downloadItemWithRetry env fs e dir = (fs2, r))
    (hs : r.success = true) :
    existsF fs2 (tmpPath dir (jsStr e.id)) = false ∨
      r.finalPath = some (tmpPath dir (jsStr e.id)) := by
  unfold downloadItemWithRetry at hrun
  obtain ⟨n0, fsb, fp, hds, hfp⟩ := retryGo_success_last env (entryUrl e) dir
    (jsStr e.id) (entryTitle e) 3 0 0 fs fs2 [] r hrun hs
  rcases downloadSingle_ok_removes_tmp env n0 fsb fs2 (entryUrl e) dir
      (jsStr e.id) fp hds with h | h
  · left; exact h
  · right; rw [hfp, h]

/-- Entry of the concrete failing and succeeding item scenarios. -/
def entC9 : Entry :=
  { id := some ("v1").data, title := some ("T").data, url := some ("u").data }

/-- Environment in which every download attempt produces the temp media
file and the metadata re-fetch succeeds but returns a record without a
`title` field. -/
def envC9 : Env :=
  { resolve := fun _ => Except.error []
    refetch := fun _ _ => Except.ok { title := none, uploader := some ("U").data }
    dl := fun _ _ _ _ _ => Except.ok [(("d/v1_temp.mp3").data, 1)]
    ffmpeg := fun _ _ _ => Except.error []
    imgDims := fun _ _ => Except.error []
    imgBuf := fun _ => 0
    cookiePaths := [] }

/-- Counterexample to C9 as stated: an item whose three attempts all
download the media successfully and then throw at the sanitize step
(missing title) ends in PermanentFailure with `v1_temp.mp3` still
present in the playlist directory. -/
theorem downloadItemWithRetry_leaves_temp_on_failure :
    (downloadItemWithRetry envC9 [] entC9 ("d").data).2.success = false ∧
    permCount (downloadItemWithRetry envC9 [] entC9 ("d").data).2.logs = 1 ∧
    existsF (downloadItemWithRetry envC9 [] entC9 ("d").data).1
      (tmpPath ("d").data (jsStr entC9.id)) = true := by
  decide

/-- Environment in which the first attempt succeeds end to end. -/
def envC9ok : Env :=
  { resolve := fun _ => Except.error []
    refetch := fun _ _ =>
      Except.ok { title := some ("T").data, uploader := some ("U").data }
    dl := fun _ _ _ _ _ => Except.ok [(("d/v1_temp.mp3").data, 1)]
    ffmpeg := fun _ _ _ => Except.error []
    imgDims := fun _ _ => Except.error []
    imgBuf := fun _ => 0
    cookiePaths := [] }

/-- Witness for the amended C9: a successful item leaves no temp media
file behind. -/
theorem downloadItemWithRetry_success_no_temp_witness :
    existsF (downloadItemWithRetry envC9ok [] entC9 ("d").data).1
        (tmpPath ("d").data (jsStr entC9.id)) = false ∨
      (downloadItemWithRetry envC9ok [] entC9 ("d").data).2.finalPath =
        some (tmpPath ("d").data (jsStr entC9.id)) :=
  downloadItemWithRetry_success_no_temp envC9ok []
    (downloadItemWithRetry envC9ok [] entC9 ("d").data).1 entC9 ("d").data
    (downloadItemWithRetry envC9ok [] entC9 ("d").data).2 rfl (by decide)

/-- C10: when the per-item metadata re-fetch succeeds but the returned
record has no `title` field, the sanitize step operates on `undefined`
and the attempt throws a TypeError before the rename, leaving the
successfully downloaded temp media file on disk and failing the attempt;
the Unknown/Unknown sentinel pair is used only when the re-fetch itself
throws, never when it succeeds with missing fields. -/
theorem downloadSingle_missing_title_typeerror (env : Env) (n : Nat) (fs fs1 : FS)
    (url dir vid : Str) (ri : RInfo)
    (env2 : Env) (n2 : Nat) (url2 err2 : Str)
    (hre : env.refetch n url = Except.ok ri) (hti : ri.title = none)
    (hstr : stratLoop env n url (cookiePick env fs) strategies fs none =
      (fs1, Except.ok ()))
    (hex : existsF fs1 (tmpPath dir vid) = true)
    (hre2 : env2.refetch n2 url2 = Except.error err2) :
    (downloadSingle env n fs url dir vid).2 =
      Except.error ("TypeError: videoTitle.replace is not a function").data ∧
    existsF (downloadSingle env n fs url dir vid).1 (tmpPath dir vid) = true ∧
    metaStage env n url = (none, ri.uploader) ∧
    metaStage env2 n2 url2 = (some ("Unknown").data, some ("Unknown").data) := by
  have hmeta : metaStage env n url = (ri.title, ri.uploader) := by
    unfold metaStage
    rw [hre]
  have hds : downloadSingle env n fs url dir vid =
      ((thumbStage env n fs1 dir vid).1,
        Except.error ("TypeError: videoTitle.replace is not a function").data) := by
    unfold downloadSingle
    dsimp only
    rw [hstr]
    dsimp only
    rw [if_pos hex, hmeta, hti]
    rfl
  refine ⟨by rw [hds], ?_, by rw [hmeta, hti], by unfold metaStage; rw [hre2]⟩
  rw [hds]
  exact thumbStage_keeps env n fs1 dir vid hex

/-- Witness for C10: the concrete missing-title scenario of `envC9` ends
the attempt with the TypeError, keeps the temp file, and does not use
the Unknown sentinel, while an erroring re-fetch does. -/
theorem downloadSingle_missing_title_typeerror_witness :
    (downloadSingle envC9 0 [] ("u").data ("d").data ("v1").data).2 =
      Except.error ("TypeError: videoTitle.replace is not a function").data ∧
    existsF (downloadSingle envC9 0 [] ("u").data ("d").data ("v1").data).1
      (tmpPath ("d").data ("v1").data) = true ∧
    metaStage envC9 0 ("u").data =
      (none, some ("U").data) ∧
    metaStage envC7 0 ("u").data =
      (some ("Unknown").data, some ("Unknown").data) :=
  downloadSingle_missing_title_typeerror envC9 0 [] [(("d/v1_temp.mp3").data, 1)]
    ("u").data ("d").data ("v1").data
    { title := none, uploader := some ("U").data }
    envC7 0 ("u").data [] rfl rfl rfl (by decide) rfl

/-! ## Playlist processing and queue orchestrator (lines 92-161)

The limiter fan-out of lines 149-156 is modelled sequentially in
admission order: with the external calls given by deterministic oracles,
the final value of the shared `completed` counter and each item's own
result are independent of the interleaving, since each task increments
the counter exactly once in its `then` continuation and
`downloadItemWithRetry` never rejects. -/

/-- The `info.entries || [info]` normalization of line 133: a record
without an entries collection is treated as the single entry. -/
def entriesOf (info : Info) : List Entry :=
  match info.entries with
  | some es => es
  | none => [{ id := info.id, title := info.title, url := info.url }]

/-- Result of processing one playlist URL: resolution failure caught and
logged (line 159), or the processed batch with its total, the final
value of the `completed` counter, and the per-item retry results. -/
inductive PRes where
  | aborted (err : Str)
  | done (total : Nat) (completed : Nat) (results : List RetryRes)
deriving DecidableEq

/-- The per-item fan-out: each item runs `downloadItemWithRetry` and its
`then` continuation increments `completed` (lines 149-154). -/
def itemsLoop (env : Env) (dir : Str) :
    List Entry → FS → Nat → List RetryRes → FS × Nat × List RetryRes
  | [], fs, c, rs => (fs, c, rs)
  | e :: rest, fs, c, rs =>
      let p := downloadItemWithRetry env fs e dir
      itemsLoop env dir rest p.1 (c + 1) (rs ++ [p.2])

/-- `processPlaylist(url)` (lines 122-161): resolve the flattened
listing, derive the sanitized playlist directory, fan the entries out,
count completions; any resolution error is caught by the surrounding
`try`/`catch` and only logged. -/
def processPlaylist (env : Env) (base : Str) (fs : FS) (url : Str) : FS × PRes :=
  match env.resolve url with
  | Except.error e => (fs, PRes.aborted e)
  | Except.ok info =>
      let playlistTitle := jsOrStr info.title ("Unknown Playlist").data
      let entries := entriesOf info
      let safeTitle := sanitize playlistTitle
      let dir := joinP base safeTitle
      let out := itemsLoop env dir entries fs 0 []
      (out.1, PRes.done entries.length out.2.1 out.2.2)

def presTotal : PRes → Nat
  | PRes.aborted _ => 0
  | PRes.done t _ _ => t

def presCompleted : PRes → Nat
  | PRes.aborted _ => 0
  | PRes.done _ c _ => c

/-- The `while (queue.length > 0)` loop of `start` (lines 105-110),
in the exception monad: a rejection of `processPlaylist` would abort the
loop, but `processPlaylist` never rejects. -/
def startLoop (env : Env) (base : Str) : FS → List Str → FS × Except Str (List PRes)
  | fs, [] => (fs, Except.ok [])
  | fs, u :: rest =>
      let p := processPlaylist env base fs u
      match startLoop env base p.1 rest with
      | (fs2, Except.ok rs) => (fs2, Except.ok (p.2 :: rs))
      | (fs2, Except.error e) => (fs2, Except.error e)

/-- Observable outcome of one `start()` run: per-playlist results, the
`catch` branch of lines 113-115 (`fatal`), the queue-finished event of
line 112 (`finished`), and the `finally` branch of lines 116-119 that
always returns the orchestrator to the Idle/Ready state. -/
structure RunRes where
  results : List PRes
  fatal : Option Str
  finished : Bool
  statusReady : Bool
deriving DecidableEq

/-- `start()` (lines 99-120). -/
def startRun (env : Env) (base : Str) (fs : FS) (queue : List Str) : FS × RunRes :=
  match startLoop env base fs queue with
  | (fs2, Except.ok rs) =>
      (fs2, { results := rs, fatal := none, finished := true, statusReady := true })
  | (fs2, Except.error e) =>
      (fs2, { results := [], fatal := some e, finished := false, statusReady := true })

theorem itemsLoop_completed (env : Env) (dir : Str) :
    ∀ (es : List Entry) (fs : FS) (c : Nat) (rs : List RetryRes),
      (itemsLoop env dir es fs c rs).2.1 = c + es.length := by
  intro es
  induction es with
  | nil => intro fs c rs; simp [itemsLoop]
  | cons e rest ih =>
      intro fs c rs
      unfold itemsLoop
      rw [ih]
      simp
      omega

theorem processPlaylist_completed (env : Env) (base : Str) (fs : FS) (url : Str) :
    presCompleted (processPlaylist env base fs url).2 =
      presTotal (processPlaylist env base fs url).2 := by
  unfold processPlaylist
  cases env.resolve url with
  | error e => rfl
  | ok info =>
      dsimp only
      rw [presCompleted, presTotal]
      rw [itemsLoop_completed]
      simp

theorem startLoop_ok (env : Env) (base : Str) :
    ∀ (q : List Str) (fs : FS),
      ∃ (fs2 : FS) (rs : List PRes),
        startLoop env base fs q = (fs2, Except.ok rs) ∧
        rs.length = q.length ∧
        ∀ (k : Nat) (err : Str), k < q.length →
          env.resolve (q.getD k []) = Except.error err →
          rs.getD k (PRes.aborted []) = PRes.aborted err := by
  intro q
  induction q with
  | nil =>
      intro fs
      exact ⟨fs, [], rfl, rfl, fun k err hk _ => absurd hk (by simp)⟩
  | cons u rest ih =>
      intro fs
      obtain ⟨fs2, rs, hloop, hlen, hpos⟩ := ih (processPlaylist env base fs u).1
      refine ⟨fs2, (processPlaylist env base fs u).2 :: rs, ?_, ?_, ?_⟩
      · unfold startLoop
        dsimp only
        rw [hloop]
      · simp [hlen]
      · intro k err hk hres
        cases k with
        | zero =>
            simp only [List.getD_cons_zero] at hres ⊢
            simp [processPlaylist, hres]
        | succ k2 =>
            simp only [List.getD_cons_succ] at hres ⊢
            simp only [List.length_cons] at hk
            exact hpos k2 err (by omega) hres

/-- C6: for any queue and any environment, a playlist whose resolution
fails is abandoned with exactly its caught error while every queued URL
is still processed (one result per queued URL, in order); the run never
reaches the critical-error branch, emits the queue-finished event, and
ends in the terminal Ready/Idle state. -/
theorem start_isolates_playlist_failures (env : Env) (base : Str) (fs : FS)
    (queue : List Str) (k : Nat) (err : Str)
    (hk : k < queue.length)
    (hres : env.resolve (queue.getD k []) = Except.error err) :
    (startRun env base fs queue).2.fatal = none ∧
    (startRun env base fs queue).2.finished = true ∧
    (startRun env base fs queue).2.statusReady = true ∧
    (startRun env base fs queue).2.results.length = queue.length ∧
    (startRun env base fs queue).2.results.getD k (PRes.aborted []) =
      PRes.aborted err := by
  obtain ⟨fs2, rs, hloop, hlen, hpos⟩ := startLoop_ok env base queue fs
  have hrun : startRun env base fs queue =
      (fs2, { results := rs, fatal := none, finished := true, statusReady := true }) := by
    unfold startRun
    rw [hloop]
  rw [hrun]
  exact ⟨rfl, rfl, rfl, hlen, hpos k err hk hres⟩

/-- Environment whose resolution always fails, for the C6 witness. -/
def envC6 : Env :=
  { resolve := fun _ => Except.error ("resolution failed").data
    refetch := fun _ _ => Except.error []
    dl := fun _ _ _ _ _ => Except.error []
    ffmpeg := fun _ _ _ => Except.error []
    imgDims := fun _ _ => Except.error []
    imgBuf := fun _ => 0
    cookiePaths := [] }

/-- Witness for C6: a one-URL queue whose resolution fails still drains,
finishes and returns to Ready, with the single result aborted. -/
theorem start_isolates_playlist_failures_witness :
    (startRun envC6 ("b").data [] [("bad").data]).2.fatal = none ∧
    (startRun envC6 ("b").data [] [("bad").data]).2.finished = true ∧
    (startRun envC6 ("b").data [] [("bad").data]).2.statusReady = true ∧
    (startRun envC6 ("b").data [] [("bad").data]).2.results.length =
      [("bad").data].length ∧
    (startRun envC6 ("b").data [] [("bad").data]).2.results.getD 0 (PRes.aborted []) =
      PRes.aborted ("resolution failed").data :=
  start_isolates_playlist_failures envC6 ("b").data [] [("bad").data] 0
    ("resolution failed").data (by decide) rfl

/-- C8: a resolved record without an entries collection is normalized
into the one-element item list (so its length is 1); in general the item
list either has length at least 1 or the playlist is processed as empty:
zero items run, zero completions are counted, and the filesystem is
untouched. -/
theorem entriesOf_normalization (info : Info) (env : Env) (base : Str) (fs : FS)
    (url : Str) (hres : env.resolve url = Except.ok info) :
    (info.entries = none →
      entriesOf info = [{ id := info.id, title := info.title, url := info.url }]) ∧
    (1 ≤ (entriesOf info).length ∨
      (entriesOf info = [] ∧
        processPlaylist env base fs url = (fs, PRes.done 0 0 []))) := by
  constructor
  · intro h
    unfold entriesOf
    rw [h]
  · cases hent : info.entries with
    | none =>
        left
        unfold entriesOf
        rw [hent]
        simp
    | some es =>
        cases es with
        | nil =>
            right
            have hee : entriesOf info = [] := by unfold entriesOf; rw [hent]
            refine ⟨hee, ?_⟩
            unfold processPlaylist
            rw [hres]
            dsimp only
            rw [hee]
            rfl
        | cons e rest =>
            left
            unfold entriesOf
            rw [hent]
            simp

/-- Record without an entries collection, for the C8 witness. -/
def infoC8 : Info :=
  { id := some ("v1").data, title := some ("T").data, url := some ("u").data,
    entries := none }

/-- Environment resolving every URL to `infoC8`, for the C8 witness. -/
def envC8 : Env :=
  { resolve := fun _ => Except.ok infoC8
    refetch := fun _ _ => Except.error []
    dl := fun _ _ _ _ _ => Except.error []
    ffmpeg := fun _ _ _ => Except.error []
    imgDims := fun _ _ => Except.error []
    imgBuf := fun _ => 0
    cookiePaths := [] }

/-- Witness for C8: a single-video record normalizes to the one-element
item list. -/
theorem entriesOf_normalization_witness :
    entriesOf infoC8 = [{ id := infoC8.id, title := infoC8.title, url := infoC8.url }] ∧
    (1 ≤ (entriesOf infoC8).length ∨
      (entriesOf infoC8 = [] ∧
        processPlaylist envC8 ("b").data [] ("u").data = ([], PRes.done 0 0 []))) :=
  ⟨(entriesOf_normalization infoC8 envC8 ("b").data [] ("u").data rfl).1 rfl,
    (entriesOf_normalization infoC8 envC8 ("b").data [] ("u").data rfl).2⟩

theorem permCount_append (l1 l2 : List LogLine) :
    permCount (l1 ++ l2) = permCount l1 + permCount l2 := by
  simp [permCount, List.filter_append]

theorem retryGo_all_fail (env : Env) (url dir vid title : Str)
    (H : ∀ (n0 : Nat) (fsx : FS),
      ∃ err, (downloadSingle env n0 fsx url dir vid).2 = Except.error err) :
    ∀ (fuel i a : Nat) (fs : FS) (logs : List LogLine),
      ∃ logs2 : List LogLine,
        (retryGo env url dir vid title fuel i fs a logs).2 =
          { attempts := a + fuel, success := false, finalPath := none,
            logs := logs ++ logs2 } ∧
        permCount logs2 = 1 := by
  intro fuel
  induction fuel with
  | zero =>
      intro i a fs logs
      refine ⟨[LogLine.permFailure title], ?_, by simp [permCount]⟩
      unfold retryGo
      simp
  | succ fuel ih =>
      intro i a fs logs
      obtain ⟨err, herr⟩ := H i fs
      unfold retryGo
      cases hds : downloadSingle env i fs url dir vid with
      | mk fs1 res =>
          rw [hds] at herr
          dsimp only at herr
          subst herr
          dsimp only
          obtain ⟨logs2, hrec, hperm⟩ := ih (i + 1) (a + 1) fs1
            (logs ++ [if 0 < i then LogLine.retryNote i title else LogLine.processing title,
              LogLine.failedAttempt (i + 1) title err])
          refine ⟨(if 0 < i then LogLine.retryNote i title else LogLine.processing title) ::
            LogLine.failedAttempt (i + 1) title err :: logs2, ?_, ?_⟩
          · rw [hrec]
            congr 1
            · omega
            · simp
          · by_cases hi : 0 < i <;>
              simp [permCount, List.filter_cons, hi] at hperm ⊢ <;> exact hperm

/-- C2: an item whose `downloadSingle` pipeline fails on every attempt is
attempted exactly 3 times, ends unsuccessfully with exactly one
permanent-failure log line (and no exception, the retry controller being
total), and a playlist's final `completed` counter still equals its
total, so a permanently failing item does not block the batch. -/
theorem downloadItemWithRetry_exhaustion (env : Env) (fs fs0 : FS) (e : Entry)
    (dir base url0 : Str)
    (H : ∀ (n0 : Nat) (fsx : FS),
      ∃ err, (downloadSingle env n0 fsx (entryUrl e) dir (jsStr e.id)).2 =
        Except.error err) :
    (downloadItemWithRetry env fs e dir).2.attempts = 3 ∧
    (downloadItemWithRetry env fs e dir).2.success = false ∧
    permCount (downloadItemWithRetry env fs e dir).2.logs = 1 ∧
    presCompleted (processPlaylist env base fs0 url0).2 =
      presTotal (processPlaylist env base fs0 url0).2 := by
  obtain ⟨logs2, hrun, hperm⟩ := retryGo_all_fail env (entryUrl e) dir (jsStr e.id)
    (entryTitle e) H 3 0 0 fs []
  unfold downloadItemWithRetry
  rw [hrun]
  refine ⟨rfl, rfl, ?_, processPlaylist_completed env base fs0 url0⟩
  simpa using hperm

/-- Playlist record containing the single always-failing item, for the
C2 witness. -/
def infoC2 : Info :=
  { id := none, title := some ("P").data, url := none, entries := some [entC9] }

/-- Environment in which every external download invocation fails, for
the C2 witness. -/
def envC2 : Env :=
  { resolve := fun _ => Except.ok infoC2
    refetch := fun _ _ => Except.error []
    dl := fun _ _ _ _ _ => Except.error ("boom").data
    ffmpeg := fun _ _ _ => Except.error []
    imgDims := fun _ _ => Except.error []
    imgBuf := fun _ => 0
    cookiePaths := [] }

/-- Witness for C2: with every download strategy failing, the item is
attempted 3 times, one permanent-failure line is logged, and the
playlist containing it still counts it as completed. -/
theorem downloadItemWithRetry_exhaustion_witness :
    (downloadItemWithRetry envC2 [] entC9 ("d").data).2.attempts = 3 ∧
    (downloadItemWithRetry envC2 [] entC9 ("d").data).2.success = false ∧
    permCount (downloadItemWithRetry envC2 [] entC9 ("d").data).2.logs = 1 ∧
    presCompleted (processPlaylist envC2 ("b").data [] ("u").data).2 =
      presTotal (processPlaylist envC2 ("b").data [] ("u").data).2 :=
  downloadItemWithRetry_exhaustion envC2 [] [] entC9 ("d").data ("b").data ("u").data
    (fun _ _ => ⟨("boom").data, rfl⟩)
